import Mathlib

/-!
Shallow embedding of searoute's core (index.js): the two-phase
`snapToNetwork` point snapper and the `searoute` orchestrator.

External collaborators (turf's distance/length routines and
geojson-path-finder's `findPath`) are parameters of the embedding:
the in-repository code only composes them.  Coordinates and distances
are modelled over `ℚ`; the claims under study are about the selection
and composition logic, not about floating-point rounding.
-/

namespace Searoute

/-- A geographic point, as a (longitude, latitude) pair. -/
abbrev Point : Type := ℚ × ℚ

/-- A LineFeature of the network: the ordered vertex list of a polyline. -/
abbrev LineFeature : Type := List Point

/-- The Network: an ordered collection of LineFeatures (marnet's features). -/
abbrev Network : Type := List LineFeature

/-- Phase 1 scan of `snapToNetwork` (the `turfMeta.featureEach` loop):
the accumulator is the pair (nearestLineIndex, distance), initialised to
(0, 30000); each feature at running index `i` replaces it exactly when its
point-to-line distance is strictly below the tracked distance. -/
def phase1Aux (d : LineFeature → ℚ) : Network → ℕ → ℕ × ℚ → ℕ × ℚ
  | [], _, acc => acc
  | f :: fs, i, (bi, bd) =>
    if d f < bd then phase1Aux d fs (i + 1) (i, d f)
    else phase1Aux d fs (i + 1) (bi, bd)

/-- Phase 1 of `snapToNetwork`: scan the whole network starting from
index 0 with initial tracked distance 30000. -/
def phase1 (dLine : Point → LineFeature → ℚ) (net : Network) (p : Point) : ℕ × ℚ :=
  phase1Aux (dLine p) net 0 (0, 30000)

/-- Phase 2 scan of `snapToNetwork` (the `turfMeta.coordEach` loop).
The JS guard is `if (!nearestVertexDist)`, which is truthy both when the
tracker is still `null` and when the tracked distance equals 0, so a
tracked distance of 0 is overwritten by the next vertex unconditionally. -/
def phase2Aux (d : Point → ℚ) : List Point → Option ℚ → Option Point → Option Point
  | [], _, bc => bc
  | c :: cs, none, _ => phase2Aux d cs (some (d c)) (some c)
  | c :: cs, some nd, bc =>
    if nd = 0 then phase2Aux d cs (some (d c)) (some c)
    else if d c < nd then phase2Aux d cs (some (d c)) (some c)
    else phase2Aux d cs (some nd) bc

/-- Phase 2 of `snapToNetwork`: scan the chosen feature's vertices with
both trackers (`nearestVertexDist`, `nearestCoord`) initialised to null. -/
def phase2 (dVert : Point → Point → ℚ) (p : Point) (coords : List Point) : Option Point :=
  phase2Aux (dVert p) coords none none

/-- `snapToNetwork point`: Phase 1 fixes a feature index, Phase 2 scans
that feature's vertices.  The result is `none` exactly when the chosen
feature has no coordinates (in JS, `turfHelpers.point(null)` would throw). -/
def snapToNetwork (dLine : Point → LineFeature → ℚ) (dVert : Point → Point → ℚ)
    (net : Network) (p : Point) : Option Point :=
  phase2 dVert p (net.getD (phase1 dLine net p).1 [])

/-- The GeoJSON LineString feature returned by `searoute`: its coordinate
list plus the `properties.units` and `properties.length` attributes. -/
structure Route where
  path : List Point
  units : String
  length : ℚ
  deriving DecidableEq

/-- The `searoute(origin, destination, units = 'nm')` orchestrator.
`findPath` is geojson-path-finder's search (returning the coordinate path
or null) and `lengthIn path u` is turf's `length` of the LineString over
`path` measured in units `u`; both are external collaborators passed as
parameters.  `Except.error ()` models an exception propagating out of the
pipeline (the snapper producing no coordinate); `Except.ok none` models
the explicit `return null` taken when no route is found. -/
def searoute (findPath : Point → Point → Option (List Point))
    (lengthIn : List Point → String → ℚ)
    (dLine : Point → LineFeature → ℚ) (dVert : Point → Point → ℚ)
    (net : Network) (origin destination : Point) (units : String := "nm") :
    Except Unit (Option Route) :=
  match snapToNetwork dLine dVert net origin, snapToNetwork dLine dVert net destination with
  | some so, some sd =>
    match findPath so sd with
    | none => Except.ok none
    | some path =>
      Except.ok (some { path := path, units := units,
                        length := if units = "nm" then lengthIn path "miles" * 1.15078
                                  else lengthIn path units })
  | _, _ => Except.error ()

/-- A concrete vertex-to-vertex distance standing in for turf's
`rhumbDistance` in closed witnesses: it shares the properties the claims
rely on (zero exactly on coincident points, positive otherwise). -/
def sampleDist (p q : Point) : ℚ :=
  (p.1 - q.1) * (p.1 - q.1) + (p.2 - q.2) * (p.2 - q.2)

/-- A concrete feature distance standing in for turf's
`pointToLineDistance` in closed witnesses: minimum vertex distance,
capped at 30000. -/
def sampleLineDist (p : Point) (f : LineFeature) : ℚ :=
  (f.map (sampleDist p)).foldl min 30000

/-- A feature distance routine reporting every feature 50000 km away,
i.e. beyond the 30000 search bound: the no-reachable-network scenario. -/
def farLineDist : Point → LineFeature → ℚ := fun _ _ => 50000

/-- A concrete cumulative polyline length standing in for turf's
`length` in closed witnesses (the unit string is not consulted). -/
def sampleLength (path : List Point) (_u : String) : ℚ :=
  (path.zip path.tail).foldl (fun acc pq => acc + sampleDist pq.1 pq.2) 0

/-- A path search returning the single-vertex path at its first endpoint:
the facade's contractual behaviour when both endpoints coincide. -/
def singleFindPath : Point → Point → Option (List Point) := fun a _ => some [a]

/-- A path search that finds no path between any endpoints. -/
def noneFindPath : Point → Point → Option (List Point) := fun _ _ => none

/-- A path search returning the two endpoints as the path. -/
def pairFindPath : Point → Point → Option (List Point) := fun a b => some [a, b]

/-- Fixture vertex (0, 0): first vertex of the fixture feature. -/
def vA : Point := (0, 0)

/-- Fixture vertex (0, 1): second vertex of the fixture feature. -/
def vB : Point := (0, 1)

/-- Fixture network: a single feature with vertices `vA` and `vB`. -/
def netA : Network := [[vA, vB]]

/-- Fixture query point (1, 1): close to the fixture feature but not a
vertex of it. -/
def pC : Point := (1, 1)

/-- Fixture query point (100, 100): far from the fixture feature. -/
def pFar : Point := (100, 100)

/-- An in-range element read with `getD` is a member of the list. -/
theorem getD_mem {α : Type} (l : List α) (j : ℕ) (h : j < l.length) (dflt : α) :
    l.getD j dflt ∈ l := by
  rw [List.getD_eq_getElem _ _ h]
  exact List.getElem_mem h

/-- Phase 1 never moves off its initial accumulator when no feature beats
the tracked distance. -/
theorem phase1Aux_stay (d : LineFeature → ℚ) :
    ∀ (fs : Network) (i bi : ℕ) (bd : ℚ), (∀ f ∈ fs, ¬ d f < bd) →
    phase1Aux d fs i (bi, bd) = (bi, bd) := by
  intro fs
  induction fs with
  | nil => intro i bi bd _; rfl
  | cons f fs ih =>
    intro i bi bd h
    have hf : ¬ d f < bd := h f (List.mem_cons_self f fs)
    show phase1Aux d (f :: fs) i (bi, bd) = (bi, bd)
    rw [phase1Aux, if_neg hf]
    exact ih (i + 1) bi bd (fun g hg => h g (List.mem_cons_of_mem f hg))

/-- Full characterisation of the Phase 1 scan: either no feature beats the
incoming tracked distance and the accumulator is returned unchanged, or the
scan returns the offset and distance of the first feature attaining the
minimum distance among those that beat the incoming tracked distance. -/
theorem phase1Aux_cases (d : LineFeature → ℚ) :
    ∀ (fs : Network) (i bi : ℕ) (bd : ℚ),
    (phase1Aux d fs i (bi, bd) = (bi, bd) ∧ ∀ f ∈ fs, bd ≤ d f)
    ∨ ∃ k, k < fs.length ∧
        phase1Aux d fs i (bi, bd) = (i + k, d (fs.getD k [])) ∧
        d (fs.getD k []) < bd ∧
        (∀ m, m < fs.length → d (fs.getD k []) ≤ d (fs.getD m [])) ∧
        (∀ m, m < k → d (fs.getD k []) < d (fs.getD m [])) := by
  intro fs
  induction fs with
  | nil =>
    intro i bi bd
    exact Or.inl ⟨rfl, by simp⟩
  | cons f fs ih =>
    intro i bi bd
    by_cases hf : d f < bd
    · have hstep : phase1Aux d (f :: fs) i (bi, bd) = phase1Aux d fs (i + 1) (i, d f) := by
        rw [phase1Aux, if_pos hf]
      rcases ih (i + 1) i (d f) with ⟨heq, hall⟩ | ⟨k, hk, heq, hlt, hmin, hstrict⟩
      · right
        refine ⟨0, Nat.succ_pos _, ?_, ?_, ?_, ?_⟩
        · rw [hstep, heq]
          simp
        · simpa using hf
        · intro m hm
          cases m with
          | zero => simp
          | succ j =>
            simp only [List.getD_cons_zero, List.getD_cons_succ]
            exact hall _ (getD_mem fs j (by simpa using hm) [])
        · intro m hm
          exact absurd hm (Nat.not_lt_zero m)
      · right
        refine ⟨k + 1, by simpa using Nat.succ_lt_succ hk, ?_, ?_, ?_, ?_⟩
        · rw [hstep, heq]
          simp only [List.getD_cons_succ]
          congr 1
          omega
        · simpa only [List.getD_cons_succ] using hlt.trans hf
        · intro m hm
          cases m with
          | zero =>
            simp only [List.getD_cons_zero, List.getD_cons_succ]
            exact hlt.le
          | succ j =>
            simp only [List.getD_cons_succ]
            exact hmin j (by simpa using hm)
        · intro m hm
          cases m with
          | zero =>
            simp only [List.getD_cons_zero, List.getD_cons_succ]
            exact hlt
          | succ j =>
            simp only [List.getD_cons_succ]
            exact hstrict j (Nat.lt_of_succ_lt_succ hm)
    · have hbd : bd ≤ d f := not_lt.mp hf
      have hstep : phase1Aux d (f :: fs) i (bi, bd) = phase1Aux d fs (i + 1) (bi, bd) := by
        rw [phase1Aux, if_neg hf]
      rcases ih (i + 1) bi bd with ⟨heq, hall⟩ | ⟨k, hk, heq, hlt, hmin, hstrict⟩
      · left
        refine ⟨by rw [hstep, heq], ?_⟩
        intro g hg
        rcases List.mem_cons.mp hg with h | h
        · exact h ▸ hbd
        · exact hall g h
      · right
        refine ⟨k + 1, by simpa using Nat.succ_lt_succ hk, ?_, ?_, ?_, ?_⟩
        · rw [hstep, heq]
          simp only [List.getD_cons_succ]
          congr 1
          omega
        · simpa only [List.getD_cons_succ] using hlt
        · intro m hm
          cases m with
          | zero =>
            simp only [List.getD_cons_zero, List.getD_cons_succ]
            exact (hlt.trans_le hbd).le
          | succ j =>
            simp only [List.getD_cons_succ]
            exact hmin j (by simpa using hm)
        · intro m hm
          cases m with
          | zero =>
            simp only [List.getD_cons_zero, List.getD_cons_succ]
            exact hlt.trans_le hbd
          | succ j =>
            simp only [List.getD_cons_succ]
            exact hstrict j (Nat.lt_of_succ_lt_succ hm)

/-- Once both Phase 2 trackers are set, the scan always produces some
coordinate, and it is either the tracked one or a scanned vertex. -/
theorem phase2Aux_some_mem (d : Point → ℚ) :
    ∀ (cs : List Point) (nd : ℚ) (bc : Point),
    ∃ r, phase2Aux d cs (some nd) (some bc) = some r ∧ (r = bc ∨ r ∈ cs) := by
  intro cs
  induction cs with
  | nil => intro nd bc; exact ⟨bc, rfl, Or.inl rfl⟩
  | cons c cs ih =>
    intro nd bc
    by_cases h0 : nd = 0
    · obtain ⟨r, hr, hmem⟩ := ih (d c) c
      refine ⟨r, ?_, ?_⟩
      · rw [phase2Aux, if_pos h0]; exact hr
      · rcases hmem with h | h
        · exact Or.inr (h ▸ List.mem_cons_self c cs)
        · exact Or.inr (List.mem_cons_of_mem c h)
    · by_cases hlt : d c < nd
      · obtain ⟨r, hr, hmem⟩ := ih (d c) c
        refine ⟨r, ?_, ?_⟩
        · rw [phase2Aux, if_neg h0, if_pos hlt]; exact hr
        · rcases hmem with h | h
          · exact Or.inr (h ▸ List.mem_cons_self c cs)
          · exact Or.inr (List.mem_cons_of_mem c h)
      · obtain ⟨r, hr, hmem⟩ := ih nd bc
        refine ⟨r, ?_, ?_⟩
        · rw [phase2Aux, if_neg h0, if_neg hlt]; exact hr
        · rcases hmem with h | h
          · exact Or.inl h
          · exact Or.inr (List.mem_cons_of_mem c h)

/-- Phase 2 over a nonempty vertex list always returns some vertex of the
list. -/
theorem phase2_mem (dVert : Point → Point → ℚ) (p : Point) :
    ∀ (cs : List Point), cs ≠ [] →
    ∃ r, phase2 dVert p cs = some r ∧ r ∈ cs := by
  intro cs hne
  match cs with
  | c :: cs =>
    obtain ⟨r, hr, hmem⟩ := phase2Aux_some_mem (dVert p) cs (dVert p c) c
    refine ⟨r, ?_, ?_⟩
    · rw [phase2, phase2Aux]; exact hr
    · rcases hmem with h | h
      · exact h ▸ List.mem_cons_self c cs
      · exact List.mem_cons_of_mem c h

/-- Full characterisation of the Phase 2 scan when neither the tracked
distance nor any scanned vertex distance is 0 (so the JS falsy reset of a
zero tracker never fires): either nothing beats the tracker and the tracked
coordinate is returned, or the result is the first vertex attaining the
minimum distance among those that beat the incoming tracked distance. -/
theorem phase2Aux_cases (d : Point → ℚ) (dp : Point) :
    ∀ (cs : List Point) (nd : ℚ) (bc : Point), nd ≠ 0 → (∀ c ∈ cs, d c ≠ 0) →
    (phase2Aux d cs (some nd) (some bc) = some bc ∧ ∀ c ∈ cs, nd ≤ d c)
    ∨ ∃ k, k < cs.length ∧
        phase2Aux d cs (some nd) (some bc) = some (cs.getD k dp) ∧
        d (cs.getD k dp) < nd ∧
        (∀ m, m < cs.length → d (cs.getD k dp) ≤ d (cs.getD m dp)) ∧
        (∀ m, m < k → d (cs.getD k dp) < d (cs.getD m dp)) := by
  intro cs
  induction cs with
  | nil =>
    intro nd bc _ _
    exact Or.inl ⟨rfl, by simp⟩
  | cons c cs ih =>
    intro nd bc hnd h0
    have hc0 : d c ≠ 0 := h0 c (List.mem_cons_self c cs)
    have h0' : ∀ x ∈ cs, d x ≠ 0 := fun x hx => h0 x (List.mem_cons_of_mem c hx)
    by_cases hlt : d c < nd
    · have hstep : phase2Aux d (c :: cs) (some nd) (some bc)
          = phase2Aux d cs (some (d c)) (some c) := by
        rw [phase2Aux, if_neg hnd, if_pos hlt]
      rcases ih (d c) c hc0 h0' with ⟨heq, hall⟩ | ⟨k, hk, heq, hklt, hmin, hstrict⟩
      · right
        refine ⟨0, Nat.succ_pos _, ?_, ?_, ?_, ?_⟩
        · rw [hstep, heq]
          simp
        · simpa using hlt
        · intro m hm
          cases m with
          | zero => simp
          | succ j =>
            simp only [List.getD_cons_zero, List.getD_cons_succ]
            exact hall _ (getD_mem cs j (by simpa using hm) dp)
        · intro m hm
          exact absurd hm (Nat.not_lt_zero m)
      · right
        refine ⟨k + 1, by simpa using Nat.succ_lt_succ hk, ?_, ?_, ?_, ?_⟩
        · rw [hstep, heq]
          simp only [List.getD_cons_succ]
        · simpa only [List.getD_cons_succ] using hklt.trans hlt
        · intro m hm
          cases m with
          | zero =>
            simp only [List.getD_cons_zero, List.getD_cons_succ]
            exact hklt.le
          | succ j =>
            simp only [List.getD_cons_succ]
            exact hmin j (by simpa using hm)
        · intro m hm
          cases m with
          | zero =>
            simp only [List.getD_cons_zero, List.getD_cons_succ]
            exact hklt
          | succ j =>
            simp only [List.getD_cons_succ]
            exact hstrict j (Nat.lt_of_succ_lt_succ hm)
    · have hge : nd ≤ d c := not_lt.mp hlt
      have hstep : phase2Aux d (c :: cs) (some nd) (some bc)
          = phase2Aux d cs (some nd) (some bc) := by
        rw [phase2Aux, if_neg hnd, if_neg hlt]
      rcases ih nd bc hnd h0' with ⟨heq, hall⟩ | ⟨k, hk, heq, hklt, hmin, hstrict⟩
      · left
        refine ⟨by rw [hstep, heq], ?_⟩
        intro x hx
        rcases List.mem_cons.mp hx with h | h
        · exact h ▸ hge
        · exact hall x h
      · right
        refine ⟨k + 1, by simpa using Nat.succ_lt_succ hk, ?_, ?_, ?_, ?_⟩
        · rw [hstep, heq]
          simp only [List.getD_cons_succ]
        · simpa only [List.getD_cons_succ] using hklt
        · intro m hm
          cases m with
          | zero =>
            simp only [List.getD_cons_zero, List.getD_cons_succ]
            exact (hklt.trans_le hge).le
          | succ j =>
            simp only [List.getD_cons_succ]
            exact hmin j (by simpa using hm)
        · intro m hm
          cases m with
          | zero =>
            simp only [List.getD_cons_zero, List.getD_cons_succ]
            exact hklt.trans_le hge
          | succ j =>
            simp only [List.getD_cons_succ]
            exact hstrict j (Nat.lt_of_succ_lt_succ hm)

/-- Claim C7: for every input point within range (strictly inside the
30000 bound) of at least one feature, Phase 1 fixes the feature with
minimum point-to-segment distance over the whole network, ties broken in
favour of the first feature in iteration order. -/
theorem phase1_nearest_feature (dLine : Point → LineFeature → ℚ) (net : Network) (p : Point)
    (h : ∃ f ∈ net, dLine p f < 30000) :
    (phase1 dLine net p).1 < net.length ∧
    (∀ m, m < net.length →
      dLine p (net.getD (phase1 dLine net p).1 []) ≤ dLine p (net.getD m [])) ∧
    (∀ m, m < (phase1 dLine net p).1 →
      dLine p (net.getD (phase1 dLine net p).1 []) < dLine p (net.getD m [])) := by
  rcases phase1Aux_cases (dLine p) net 0 0 30000 with ⟨_, hall⟩ | ⟨k, hk, heq, _, hmin, hstrict⟩
  · obtain ⟨f, hf, hflt⟩ := h
    exact absurd hflt (not_lt.mpr (hall f hf))
  · have hidx : (phase1 dLine net p).1 = k := by
      rw [phase1, heq]
      simp
    rw [hidx]
    exact ⟨hk, hmin, hstrict⟩

/-- Witness for C7 at the fixture network and the query point (1, 1). -/
theorem phase1_nearest_feature_witness :
    (∃ f ∈ netA, sampleLineDist pC f < 30000) ∧
    ((phase1 sampleLineDist netA pC).1 < netA.length ∧
     (∀ m, m < netA.length →
       sampleLineDist pC (netA.getD (phase1 sampleLineDist netA pC).1 []) ≤
         sampleLineDist pC (netA.getD m [])) ∧
     (∀ m, m < (phase1 sampleLineDist netA pC).1 →
       sampleLineDist pC (netA.getD (phase1 sampleLineDist netA pC).1 []) <
         sampleLineDist pC (netA.getD m []))) :=
  ⟨⟨[vA, vB], by simp [netA], by norm_num [sampleLineDist, sampleDist, vA, vB, pC, min_def]⟩,
   phase1_nearest_feature sampleLineDist netA pC
     ⟨[vA, vB], by simp [netA], by norm_num [sampleLineDist, sampleDist, vA, vB, pC, min_def]⟩⟩

/-- Claim C1 (code bug): when no feature of the network is within the
30000 search radius, `snapToNetwork` does not fail with a distinct
no-reachable-network condition; the tracking index keeps its initial
value 0, and the snapper silently returns a vertex of feature index 0. -/
theorem snap_silent_fallback (dLine : Point → LineFeature → ℚ) (dVert : Point → Point → ℚ)
    (net : Network) (p : Point)
    (h : ∀ f ∈ net, ¬ dLine p f < 30000) (hne : net.getD 0 [] ≠ []) :
    (phase1 dLine net p).1 = 0 ∧
    ∃ c, snapToNetwork dLine dVert net p = some c ∧ c ∈ net.getD 0 [] := by
  have h1 : phase1 dLine net p = (0, 30000) := phase1Aux_stay (dLine p) net 0 0 30000 h
  refine ⟨by rw [h1], ?_⟩
  obtain ⟨r, hr, hmem⟩ := phase2_mem dVert p (net.getD 0 []) hne
  refine ⟨r, ?_, hmem⟩
  rw [snapToNetwork, h1]
  exact hr

/-- Witness for C1: every feature reported 50000 km away from the far
query point, yet a snapped point from feature 0 is returned. -/
theorem snap_silent_fallback_witness :
    (∀ f ∈ netA, ¬ farLineDist pFar f < 30000) ∧ netA.getD 0 [] ≠ [] ∧
    ((phase1 farLineDist netA pFar).1 = 0 ∧
     ∃ c, snapToNetwork farLineDist sampleDist netA pFar = some c ∧ c ∈ netA.getD 0 []) :=
  ⟨fun f _ => by norm_num [farLineDist], by simp [netA],
   snap_silent_fallback farLineDist sampleDist netA pFar
     (fun f _ => by norm_num [farLineDist]) (by simp [netA])⟩

/-- Claim C2 (code bug): snapping is not idempotent.  For a network whose
single feature is [A, B] with A ≠ B, snapping the vertex A itself returns
B: the vertex-distance tracker is set to 0 at A, the JS falsy guard
`!nearestVertexDist` then treats it as unset, and B overwrites it. -/
theorem snap_zero_vertex_overwritten (dLine : Point → LineFeature → ℚ)
    (d : Point → Point → ℚ) (A B : Point)
    (hAA : d A A = 0) (hne : B ≠ A) :
    snapToNetwork dLine d [[A, B]] A = some B ∧ some B ≠ some A := by
  have hidx : (phase1 dLine [[A, B]] A).1 = 0 := by
    rw [phase1, phase1Aux]
    split <;> rfl
  constructor
  · rw [snapToNetwork, hidx]
    simp only [List.getD_cons_zero]
    rw [phase2, phase2Aux, hAA, phase2Aux, if_pos rfl, phase2Aux]
  · simpa using hne

/-- Witness for C2: snapping the network vertex (0, 0) returns (0, 1). -/
theorem snap_zero_vertex_overwritten_witness :
    sampleDist vA vA = 0 ∧ vB ≠ vA ∧
    (snapToNetwork sampleLineDist sampleDist [[vA, vB]] vA = some vB ∧
     some vB ≠ some vA) :=
  ⟨by norm_num [sampleDist, vA], by simp [vA, vB],
   snap_zero_vertex_overwritten sampleLineDist sampleDist vA vB
     (by norm_num [sampleDist, vA]) (by simp [vA, vB])⟩

/-- Claim C6, counterexample: with the Phase 1 feature fixed as [vA, vB]
and the input point equal to vA, Phase 2 returns vB although the scanned
vertex vA is strictly closer — the returned point is not the
minimum-distance vertex, refuting the claim as stated. -/
theorem phase2_min_vertex_cx :
    phase2 sampleDist vA [vA, vB] = some vB ∧
    sampleDist vA vA < sampleDist vA vB := by
  constructor
  · rw [phase2, phase2Aux, show sampleDist vA vA = 0 by norm_num [sampleDist, vA],
      phase2Aux, if_pos rfl, phase2Aux]
  · norm_num [sampleDist, vA, vB]

/-- Claim C6 as amended: provided no vertex of the fixed feature lies at
vertex distance exactly 0 from the input point, Phase 2 returns the vertex
with minimum vertex distance, ties broken in favour of the first vertex in
iteration order.  (A vertex at distance exactly 0 is treated as unset by
the JS falsy guard and can be overwritten by a later vertex.) -/
theorem phase2_nearest_vertex_amended (dVert : Point → Point → ℚ) (p : Point)
    (coords : List Point) (hne : coords ≠ []) (h0 : ∀ c ∈ coords, dVert p c ≠ 0) :
    ∃ k, k < coords.length ∧ phase2 dVert p coords = some (coords.getD k p) ∧
      (∀ m, m < coords.length →
        dVert p (coords.getD k p) ≤ dVert p (coords.getD m p)) ∧
      (∀ m, m < k → dVert p (coords.getD k p) < dVert p (coords.getD m p)) := by
  match coords, hne with
  | c :: cs, _ =>
    have hc0 : dVert p c ≠ 0 := h0 c (List.mem_cons_self c cs)
    have h0' : ∀ x ∈ cs, dVert p x ≠ 0 := fun x hx => h0 x (List.mem_cons_of_mem c hx)
    have hstep : phase2 dVert p (c :: cs) = phase2Aux (dVert p) cs (some (dVert p c)) (some c) := by
      rw [phase2, phase2Aux]
    rcases phase2Aux_cases (dVert p) p cs (dVert p c) c hc0 h0' with
      ⟨heq, hall⟩ | ⟨k, hk, heq, hklt, hmin, hstrict⟩
    · refine ⟨0, Nat.succ_pos _, ?_, ?_, ?_⟩
      · rw [hstep, heq]
        simp
      · intro m hm
        cases m with
        | zero => simp
        | succ j =>
          simp only [List.getD_cons_zero, List.getD_cons_succ]
          exact hall _ (getD_mem cs j (by simpa using hm) p)
      · intro m hm
        exact absurd hm (Nat.not_lt_zero m)
    · refine ⟨k + 1, by simpa using Nat.succ_lt_succ hk, ?_, ?_, ?_⟩
      · rw [hstep, heq]
        simp only [List.getD_cons_succ]
      · intro m hm
        cases m with
        | zero =>
          simp only [List.getD_cons_zero, List.getD_cons_succ]
          exact hklt.le
        | succ j =>
          simp only [List.getD_cons_succ]
          exact hmin j (by simpa using hm)
      · intro m hm
        cases m with
        | zero =>
          simp only [List.getD_cons_zero, List.getD_cons_succ]
          exact hklt
        | succ j =>
          simp only [List.getD_cons_succ]
          exact hstrict j (Nat.lt_of_succ_lt_succ hm)

/-- Witness for the amended C6 at the query point (1, 1), whose distance
to both fixture vertices is nonzero. -/
theorem phase2_nearest_vertex_amended_witness :
    (([vA, vB] : List Point) ≠ [] ∧ ∀ c ∈ [vA, vB], sampleDist pC c ≠ 0) ∧
    (∃ k, k < ([vA, vB] : List Point).length ∧
      phase2 sampleDist pC [vA, vB] = some (([vA, vB] : List Point).getD k pC) ∧
      (∀ m, m < ([vA, vB] : List Point).length →
        sampleDist pC (([vA, vB] : List Point).getD k pC) ≤
          sampleDist pC (([vA, vB] : List Point).getD m pC)) ∧
      (∀ m, m < k →
        sampleDist pC (([vA, vB] : List Point).getD k pC) <
          sampleDist pC (([vA, vB] : List Point).getD m pC))) :=
  ⟨⟨by simp, by norm_num [List.forall_mem_cons, sampleDist, pC, vA, vB]⟩,
   phase2_nearest_vertex_amended sampleDist pC [vA, vB] (by simp)
     (by norm_num [List.forall_mem_cons, sampleDist, pC, vA, vB])⟩

/-- Concrete evaluation: snapping the fixture vertex (0, 0) on the fixture
network lands on (0, 1) (the zero tracker is overwritten). -/
theorem snapA_eq : snapToNetwork sampleLineDist sampleDist netA vA = some vB := by
  norm_num [snapToNetwork, phase1, phase1Aux, phase2, phase2Aux, sampleLineDist,
    sampleDist, netA, vA, vB, min_def, List.getD_cons_zero]

/-- Concrete evaluation: snapping the fixture vertex (0, 1) on the fixture
network returns it unchanged (it is the last vertex scanned). -/
theorem snapB_eq : snapToNetwork sampleLineDist sampleDist netA vB = some vB := by
  norm_num [snapToNetwork, phase1, phase1Aux, phase2, phase2Aux, sampleLineDist,
    sampleDist, netA, vA, vB, min_def, List.getD_cons_zero]

/-- Claim C3: when origin and destination coincide and snap successfully,
and the facade returns the single-vertex path (its contract for equal
endpoints) whose measured length is 0, `searoute` returns a degenerate
Route of length 0 rather than failing. -/
theorem route_zero_distance_identity
    (findPath : Point → Point → Option (List Point))
    (lengthIn : List Point → String → ℚ)
    (dLine : Point → LineFeature → ℚ) (dVert : Point → Point → ℚ)
    (net : Network) (p s : Point)
    (hsnap : snapToNetwork dLine dVert net p = some s)
    (hfp : findPath s s = some [s])
    (hlen : lengthIn [s] "miles" = 0) :
    ∃ r, searoute findPath lengthIn dLine dVert net p p "nm" = Except.ok (some r) ∧
      r.length = 0 := by
  refine ⟨⟨[s], "nm", 0⟩, ?_, rfl⟩
  simp [searoute, hsnap, hfp, hlen]

/-- Witness for C3 at the fixture network and origin = destination = (0, 0). -/
theorem route_zero_distance_identity_witness :
    snapToNetwork sampleLineDist sampleDist netA vA = some vB ∧
    singleFindPath vB vB = some [vB] ∧
    sampleLength [vB] "miles" = 0 ∧
    ∃ r, searoute singleFindPath sampleLength sampleLineDist sampleDist netA vA vA "nm" =
        Except.ok (some r) ∧ r.length = 0 :=
  ⟨snapA_eq, rfl, by norm_num [sampleLength],
   route_zero_distance_identity singleFindPath sampleLength sampleLineDist sampleDist
     netA vA vB snapA_eq rfl (by norm_num [sampleLength])⟩

/-- Claim C4: when both endpoints snap successfully and the facade reports
no path, `searoute` returns the explicit null result (`Except.ok none`),
not an exception. -/
theorem route_no_path_returns_null
    (findPath : Point → Point → Option (List Point))
    (lengthIn : List Point → String → ℚ)
    (dLine : Point → LineFeature → ℚ) (dVert : Point → Point → ℚ)
    (net : Network) (o dst : Point) (u : String) (so sd : Point)
    (ho : snapToNetwork dLine dVert net o = some so)
    (hd : snapToNetwork dLine dVert net dst = some sd)
    (hfp : findPath so sd = none) :
    searoute findPath lengthIn dLine dVert net o dst u = Except.ok none := by
  simp [searoute, ho, hd, hfp]

/-- Witness for C4 with a facade that finds no path. -/
theorem route_no_path_returns_null_witness :
    snapToNetwork sampleLineDist sampleDist netA vA = some vB ∧
    snapToNetwork sampleLineDist sampleDist netA vB = some vB ∧
    noneFindPath vB vB = none ∧
    searoute noneFindPath sampleLength sampleLineDist sampleDist netA vA vB "nm" =
      Except.ok none :=
  ⟨snapA_eq, snapB_eq, rfl,
   route_no_path_returns_null noneFindPath sampleLength sampleLineDist sampleDist
     netA vA vB "nm" vB vB snapA_eq snapB_eq rfl⟩

/-- Claim C5: for every assembled Route, the length is the underlying
length routine's miles result times exactly 1.15078 when the unit is
"nm", and the routine's direct result in the requested unit otherwise. -/
theorem route_length_unit_conversion
    (findPath : Point → Point → Option (List Point))
    (lengthIn : List Point → String → ℚ)
    (dLine : Point → LineFeature → ℚ) (dVert : Point → Point → ℚ)
    (net : Network) (o dst : Point) (u : String) (so sd : Point) (path : List Point)
    (ho : snapToNetwork dLine dVert net o = some so)
    (hd : snapToNetwork dLine dVert net dst = some sd)
    (hfp : findPath so sd = some path) :
    ∃ r, searoute findPath lengthIn dLine dVert net o dst u = Except.ok (some r) ∧
      (u = "nm" → r.length = lengthIn path "miles" * 1.15078) ∧
      (u ≠ "nm" → r.length = lengthIn path u) :=
  ⟨⟨path, u, if u = "nm" then lengthIn path "miles" * 1.15078 else lengthIn path u⟩,
   by simp [searoute, ho, hd, hfp], fun h => if_pos h, fun h => if_neg h⟩

/-- Witness for C5 at units "nm". -/
theorem route_length_unit_conversion_witness :
    snapToNetwork sampleLineDist sampleDist netA vA = some vB ∧
    snapToNetwork sampleLineDist sampleDist netA vB = some vB ∧
    pairFindPath vB vB = some [vB, vB] ∧
    ∃ r, searoute pairFindPath sampleLength sampleLineDist sampleDist netA vA vB "nm" =
        Except.ok (some r) ∧
      ("nm" = "nm" → r.length = sampleLength [vB, vB] "miles" * 1.15078) ∧
      ("nm" ≠ "nm" → r.length = sampleLength [vB, vB] "nm") :=
  ⟨snapA_eq, snapB_eq, rfl,
   route_length_unit_conversion pairFindPath sampleLength sampleLineDist sampleDist
     netA vA vB "nm" vB vB [vB, vB] snapA_eq snapB_eq rfl⟩

/-- Claim C8: a successful routing call returns the facade's path exactly
(no resampling or simplification), and — given the facade's contract that
its path starts and ends at the given snapped endpoints — the Route's
first and last vertices are the SnappedPoints, not the raw inputs. -/
theorem route_path_unmodified
    (findPath : Point → Point → Option (List Point))
    (lengthIn : List Point → String → ℚ)
    (dLine : Point → LineFeature → ℚ) (dVert : Point → Point → ℚ)
    (net : Network) (o dst : Point) (u : String) (so sd : Point) (path : List Point)
    (ho : snapToNetwork dLine dVert net o = some so)
    (hd : snapToNetwork dLine dVert net dst = some sd)
    (hfp : findPath so sd = some path)
    (hhead : path.head? = some so) (hlast : path.getLast? = some sd) :
    ∃ r, searoute findPath lengthIn dLine dVert net o dst u = Except.ok (some r) ∧
      r.path = path ∧ r.path.head? = some so ∧ r.path.getLast? = some sd :=
  ⟨⟨path, u, if u = "nm" then lengthIn path "miles" * 1.15078 else lengthIn path u⟩,
   by simp [searoute, ho, hd, hfp], rfl, hhead, hlast⟩

/-- Witness for C8 with the two-vertex path between the snapped points. -/
theorem route_path_unmodified_witness :
    snapToNetwork sampleLineDist sampleDist netA vA = some vB ∧
    snapToNetwork sampleLineDist sampleDist netA vB = some vB ∧
    pairFindPath vB vB = some [vB, vB] ∧
    ([vB, vB] : List Point).head? = some vB ∧
    ([vB, vB] : List Point).getLast? = some vB ∧
    ∃ r, searoute pairFindPath sampleLength sampleLineDist sampleDist netA vA vB "miles" =
        Except.ok (some r) ∧
      r.path = [vB, vB] ∧ r.path.head? = some vB ∧ r.path.getLast? = some vB :=
  ⟨snapA_eq, snapB_eq, rfl, rfl, rfl,
   route_path_unmodified pairFindPath sampleLength sampleLineDist sampleDist
     netA vA vB "miles" vB vB [vB, vB] snapA_eq snapB_eq rfl rfl rfl⟩

/-- Claim C9: with the facade, the length routine, the distance routines
and the network fixed, `searoute` and `snapToNetwork` are pure functions
of their arguments: equal inputs give identical results across calls. -/
theorem route_deterministic
    (findPath : Point → Point → Option (List Point))
    (lengthIn : List Point → String → ℚ)
    (dLine : Point → LineFeature → ℚ) (dVert : Point → Point → ℚ)
    (net : Network) (o₁ o₂ d₁ d₂ : Point) (u₁ u₂ : String) (p₁ p₂ : Point)
    (ho : o₁ = o₂) (hd : d₁ = d₂) (hu : u₁ = u₂) (hp : p₁ = p₂) :
    searoute findPath lengthIn dLine dVert net o₁ d₁ u₁ =
      searoute findPath lengthIn dLine dVert net o₂ d₂ u₂ ∧
    snapToNetwork dLine dVert net p₁ = snapToNetwork dLine dVert net p₂ := by
  subst ho hd hu hp
  exact ⟨rfl, rfl⟩

/-- Witness for C9 at concrete repeated calls. -/
theorem route_deterministic_witness :
    searoute pairFindPath sampleLength sampleLineDist sampleDist netA vA vB "nm" =
      searoute pairFindPath sampleLength sampleLineDist sampleDist netA vA vB "nm" ∧
    snapToNetwork sampleLineDist sampleDist netA pC =
      snapToNetwork sampleLineDist sampleDist netA pC :=
  route_deterministic pairFindPath sampleLength sampleLineDist sampleDist
    netA vA vA vB vB "nm" "nm" pC pC rfl rfl rfl rfl

/-- Claim C10 (implicit): the units argument is never validated — any
string `u` is stored verbatim in the Route's units attribute, is forwarded
unchanged to the length routine whenever it differs from "nm", and the
call never fails on account of `u`. -/
theorem route_units_unvalidated
    (findPath : Point → Point → Option (List Point))
    (lengthIn : List Point → String → ℚ)
    (dLine : Point → LineFeature → ℚ) (dVert : Point → Point → ℚ)
    (net : Network) (o dst : Point) (so sd : Point) (path : List Point) (u : String)
    (ho : snapToNetwork dLine dVert net o = some so)
    (hd : snapToNetwork dLine dVert net dst = some sd)
    (hfp : findPath so sd = some path) :
    ∃ r, searoute findPath lengthIn dLine dVert net o dst u = Except.ok (some r) ∧
      r.units = u ∧ (u ≠ "nm" → r.length = lengthIn path u) ∧
      (searoute findPath lengthIn dLine dVert net o dst u).isOk = true := by
  have heq : searoute findPath lengthIn dLine dVert net o dst u =
      Except.ok (some ⟨path, u, if u = "nm" then lengthIn path "miles" * 1.15078
                                else lengthIn path u⟩) := by
    simp [searoute, ho, hd, hfp]
  exact ⟨⟨path, u, if u = "nm" then lengthIn path "miles" * 1.15078 else lengthIn path u⟩,
    heq, rfl, fun h => if_neg h, by rw [heq]; rfl⟩

/-- Witness for C10 at the out-of-vocabulary unit string "furlongs". -/
theorem route_units_unvalidated_witness :
    snapToNetwork sampleLineDist sampleDist netA vA = some vB ∧
    snapToNetwork sampleLineDist sampleDist netA vB = some vB ∧
    pairFindPath vB vB = some [vB, vB] ∧
    ∃ r, searoute pairFindPath sampleLength sampleLineDist sampleDist netA vA vB
          "furlongs" = Except.ok (some r) ∧
      r.units = "furlongs" ∧
      ("furlongs" ≠ "nm" → r.length = sampleLength [vB, vB] "furlongs") ∧
      (searoute pairFindPath sampleLength sampleLineDist sampleDist netA vA vB
          "furlongs").isOk = true :=
  ⟨snapA_eq, snapB_eq, rfl,
   route_units_unvalidated pairFindPath sampleLength sampleLineDist sampleDist
     netA vA vB vB vB [vB, vB] "furlongs" snapA_eq snapB_eq rfl⟩

end Searoute
